import Mathlib

/-!
Host port range allocator (`agent/engine/portmapper`, `agent/utils`)

A shallow embedding of `portMappingManager` and of the discovery of the ephemeral
range, with the properties of the allocator stated and proved over it.

Conventions of the embedding

* Go `int` is the 64-bit two's complement integer: values are `Int`, and the two
  arithmetic expressions of the allocator (`lastAssignedHostPort + 1`,
  `lastAssignedHostPort - 1`) wrap through `wrapInt`.
* `utils.GetContiguousPorts` is not part of the sources at hand. It is a
  parameter of the model: an oracle that is handed the state of the host
  (`W`), answers `(resultStartPort, resultEndPort, ok)` and hands the host state
  back. A deterministic probe is the case where the host state is returned as is.
* The lock of the allocator is explicit state. `GetHostPortRangeLocked` and the
  four locked accessors are the Go methods with every `Lock`, `RLock` and deferred
  release in place; over `goRWMutex`, the `sync.RWMutex` of the source, an
  acquisition that Go does not grant stops the run.
* `Allocator` is the receiver as its callers share it: fields, lock and host.
  `Allocator.GetHostPortRange` and its siblings are one call of the method on the
  shared allocator: what the caller receives, if the call returns, and the
  allocator afterwards.
-/

namespace PortMapper

/-! ## Go integers and `strconv.Itoa` -/

/-- Two's complement wrap of a mathematical integer into the range of Go's 64-bit `int`. -/
def wrapInt (x : Int) : Int := (x + 2 ^ 63) % 2 ^ 64 - 2 ^ 63

/-- Go `a + b` on `int`. -/
def addInt (a b : Int) : Int := wrapInt (a + b)

/-- Go `a - b` on `int`. -/
def subInt (a b : Int) : Int := wrapInt (a - b)

/-- The decimal digit character of a number below ten. -/
def digitChar (d : Nat) : Char := Char.ofNat (48 + d)

/-- Decimal digits of a natural number, most significant first, no leading zero
(`0` is the single digit `0`); the first argument bounds the number of digits. -/
def natDigits : Nat → Nat → List Char
  | 0, _ => []
  | fuel + 1, n =>
    if n < 10 then [digitChar n] else natDigits fuel (n / 10) ++ [digitChar (n % 10)]

/-- Characters of `strconv.Itoa n`: an optional minus sign, then the decimal digits. -/
def itoaChars (n : Int) : List Char :=
  if n < 0 then '-' :: natDigits (n.natAbs + 1) n.natAbs
  else natDigits (n.natAbs + 1) n.natAbs

/-- Go `strconv.Itoa`, which is also how `fmt` renders an `int` under `%v`. -/
def Itoa (n : Int) : String := String.mk (itoaChars n)

/-- Value of a list of decimal digit characters, most significant first. -/
def parseNat (cs : List Char) : Nat :=
  cs.foldl (fun acc c => acc * 10 + (c.toNat - 48)) 0

/-! ## The allocator -/

/-- Fields of `portMappingManager` other than the lock. -/
structure portMappingManager where
  startHostPortRange : Int
  endHostPortRange : Int
  lastAssignedHostPort : Int
  deriving DecidableEq, Repr

/-- Arguments of one call of `utils.GetContiguousPorts`. -/
structure ProbeCall where
  numberOfPorts : Int
  requestStart : Int
  requestEnd : Int
  protocol : String
  deriving DecidableEq, Repr

/-- Results of `utils.GetContiguousPorts`: `(resultStartPort, resultEndPort, ok)`. -/
structure ProbeResult where
  resultStartPort : Int
  resultEndPort : Int
  ok : Bool
  deriving DecidableEq, Repr

/-- The port probe `utils.GetContiguousPorts`, as an oracle over the host state `W`. -/
abbrev Probe (W : Type) := ProbeCall → W → ProbeResult × W

/-- What a call of `GetHostPortRange` leaves behind: the returned `(string, error)`
(`.ok s` for `(s, nil)`, `.error msg` for `("", err)`), the allocator, the host
state, and the probe calls made, in order. -/
structure Outcome (W : Type) where
  ret : Except String String
  pm : portMappingManager
  world : W
  calls : List ProbeCall

/-- `GetStartHostPortRange`. -/
def GetStartHostPortRange (pm : portMappingManager) : Int := pm.startHostPortRange

/-- `GetEndHostPortRange`. -/
def GetEndHostPortRange (pm : portMappingManager) : Int := pm.endHostPortRange

/-- `GetLastAssignedHostPort`. -/
def GetLastAssignedHostPort (pm : portMappingManager) : Int := pm.lastAssignedHostPort

/-- `SetLastAssignedHostPort`. -/
def SetLastAssignedHostPort (pm : portMappingManager) (port : Int) : portMappingManager :=
  { pm with lastAssignedHostPort := port }

/-- The error of `fmt.Errorf("%v contiguous host ports unavailable", numberOfPorts)`. -/
def unavailable (numberOfPorts : Int) : String :=
  Itoa numberOfPorts ++ " contiguous host ports unavailable"

/-- The returned string `strconv.Itoa(resultStartPort) + "-" + strconv.Itoa(resultEndPort)`. -/
def rangeString (resultStartPort resultEndPort : Int) : String :=
  Itoa resultStartPort ++ "-" ++ Itoa resultEndPort

deriving instance DecidableEq for Except

/-- A probe for a host on which every port is free: the lowest block of
`numberOfPorts` ports of the window when the window is that wide, else not found. -/
def firstFitProbe : Probe Unit := fun c w =>
  if c.numberOfPorts ≤ c.requestEnd - c.requestStart + 1 then
    (⟨c.requestStart, c.requestStart + c.numberOfPorts - 1, true⟩, w)
  else (⟨0, 0, false⟩, w)

/-- A probe for a host on which no port is free. -/
def neverProbe : Probe Unit := fun _ w => (⟨0, 0, false⟩, w)

/-- The contract of the probe: a block reported as found lies inside the requested
window and has the requested number of ports. -/
def HonoursContract {W : Type} (probe : Probe W) : Prop :=
  ∀ (c : ProbeCall) (w : W), (probe c w).1.ok = true →
    c.requestStart ≤ (probe c w).1.resultStartPort ∧
    (probe c w).1.resultEndPort ≤ c.requestEnd ∧
    (probe c w).1.resultEndPort - (probe c w).1.resultStartPort + 1 = c.numberOfPorts

/-! ## The lock -/

/-- State of a `sync.RWMutex`: free, held shared by `n` readers, or held exclusively. -/
inductive RWMutex where
  | free
  | heldShared (n : Nat)
  | heldExclusive
  deriving DecidableEq, Repr

/-- The two acquisitions of a `sync.RWMutex`. -/
inductive Acquisition where
  | Lock
  | RLock
  deriving DecidableEq, Repr

/-- How a run stops short of returning: it waits for an acquisition that the
state of the mutex does not grant, or it releases a mutex that is not held
(a fatal error of the Go runtime). -/
inductive Stuck where
  | waits (request : Acquisition) (state : RWMutex)
  | badRelease (state : RWMutex)
  deriving DecidableEq, Repr

/-- `rw.Lock()`: granted when the mutex is free. -/
def RWMutex.Lock : RWMutex → Except Stuck RWMutex
  | .free => .ok .heldExclusive
  | m => .error (.waits .Lock m)

/-- `rw.Unlock()`. -/
def RWMutex.Unlock : RWMutex → Except Stuck RWMutex
  | .heldExclusive => .ok .free
  | m => .error (.badRelease m)

/-- `rw.RLock()`: granted unless the mutex is held exclusively (no writer is
waiting when the call runs alone). -/
def RWMutex.RLock : RWMutex → Except Stuck RWMutex
  | .free => .ok (.heldShared 1)
  | .heldShared n => .ok (.heldShared (n + 1))
  | .heldExclusive => .error (.waits .RLock .heldExclusive)

/-- `rw.RUnlock()`. -/
def RWMutex.RUnlock : RWMutex → Except Stuck RWMutex
  | .heldShared 1 => .ok .free
  | .heldShared (n + 2) => .ok (.heldShared (n + 1))
  | m => .error (.badRelease m)

/-- The four operations of the lock of the allocator, over lock states `L`; an
operation that cannot go on stops the run. -/
structure LockOps (L : Type) where
  Lock : L → Except Stuck L
  Unlock : L → Except Stuck L
  RLock : L → Except Stuck L
  RUnlock : L → Except Stuck L

/-- The lock of the allocator as it is: a `sync.RWMutex`. -/
def goRWMutex : LockOps RWMutex :=
  { Lock := RWMutex.Lock, Unlock := RWMutex.Unlock
    RLock := RWMutex.RLock, RUnlock := RWMutex.RUnlock }

/-- `GetStartHostPortRange` with its lock. -/
def GetStartHostPortRangeLocked {L : Type} (rw : LockOps L) (pm : portMappingManager)
    (lock : L) : Except Stuck (Int × L) := do
  let lock ← rw.RLock lock
  let v := pm.startHostPortRange
  let lock ← rw.RUnlock lock
  pure (v, lock)

/-- `GetEndHostPortRange` with its lock. -/
def GetEndHostPortRangeLocked {L : Type} (rw : LockOps L) (pm : portMappingManager)
    (lock : L) : Except Stuck (Int × L) := do
  let lock ← rw.RLock lock
  let v := pm.endHostPortRange
  let lock ← rw.RUnlock lock
  pure (v, lock)

/-- `GetLastAssignedHostPort` with its lock. -/
def GetLastAssignedHostPortLocked {L : Type} (rw : LockOps L) (pm : portMappingManager)
    (lock : L) : Except Stuck (Int × L) := do
  let lock ← rw.RLock lock
  let v := pm.lastAssignedHostPort
  let lock ← rw.RUnlock lock
  pure (v, lock)

/-- `SetLastAssignedHostPort` with its lock. -/
def SetLastAssignedHostPortLocked {L : Type} (rw : LockOps L) (pm : portMappingManager)
    (lock : L) (port : Int) : Except Stuck (portMappingManager × L) := do
  let lock ← rw.Lock lock
  let pm := { pm with lastAssignedHostPort := port }
  let lock ← rw.Unlock lock
  pure (pm, lock)

/-- `GetHostPortRange` with the lock as state: the exclusive `Lock` at entry, the
deferred `Unlock` on every return, and the accessors taking the lock themselves. -/
def GetHostPortRangeLocked {W L : Type} (rw : LockOps L) (probe : Probe W)
    (pm : portMappingManager) (w : W) (lock : L) (numberOfPorts : Int) (protocol : String) :
    Except Stuck (Outcome W × L) := do
  let lock ← rw.Lock lock
  let (requestStart, lock) ← GetStartHostPortRangeLocked rw pm lock
  let (requestEnd, lock) ← GetEndHostPortRangeLocked rw pm lock
  let (lastAssignedHostPort, lock) ← GetLastAssignedHostPortLocked rw pm lock
  let requestStart :=
    if lastAssignedHostPort ≠ 0 then addInt lastAssignedHostPort 1 else requestStart
  let c1 : ProbeCall := ⟨numberOfPorts, requestStart, requestEnd, protocol⟩
  let (r1, w1) := probe c1 w
  if r1.ok then
    let (pm1, lock) ← SetLastAssignedHostPortLocked rw pm lock r1.resultEndPort
    let lock ← rw.Unlock lock
    pure ({ ret := .ok (Itoa r1.resultStartPort ++ "-" ++ Itoa r1.resultEndPort)
            pm := pm1, world := w1, calls := [c1] }, lock)
  else if lastAssignedHostPort ≠ 0 then
    let (requestStart, lock) ← GetStartHostPortRangeLocked rw pm lock
    let requestEnd := subInt lastAssignedHostPort 1
    let c2 : ProbeCall := ⟨numberOfPorts, requestStart, requestEnd, protocol⟩
    let (r2, w2) := probe c2 w1
    if !r2.ok then
      let lock ← rw.Unlock lock
      pure ({ ret := .error (unavailable numberOfPorts), pm := pm, world := w2
              calls := [c1, c2] }, lock)
    else
      let (pm1, lock) ← SetLastAssignedHostPortLocked rw pm lock r2.resultEndPort
      let lock ← rw.Unlock lock
      pure ({ ret := .ok (Itoa r2.resultStartPort ++ "-" ++ Itoa r2.resultEndPort)
              pm := pm1, world := w2, calls := [c1, c2] }, lock)
  else
    let lock ← rw.Unlock lock
    pure ({ ret := .error (unavailable numberOfPorts), pm := pm, world := w1
            calls := [c1] }, lock)

/-! ## Calls on the shared allocator -/

/-- The allocator as its callers share it: the fields, the lock, and the host. -/
structure Allocator (W : Type) where
  pm : portMappingManager
  lock : RWMutex
  world : W

/-- A freshly constructed allocator: cursor 0 and the zero value of the mutex. -/
def Allocator.fresh {W : Type} (startPort endPort : Int) (w : W) : Allocator W :=
  { pm := ⟨startPort, endPort, 0⟩, lock := .free, world := w }

/-- The state of the mutex at the point where a run stops. -/
def Stuck.lock : Stuck → RWMutex
  | .waits _ state => state
  | .badRelease state => state

/-- One call `pm.GetHostPortRange(numberOfPorts, protocol)` on the shared
allocator: the `(string, error)` the caller receives, `none` when the call does
not return, and the allocator afterwards. A call that does not return has stopped
at the `Lock` of line 55 or at the `RLock` of line 94 (`GetHostPortRangeLocked_stops`),
before the first call of the probe and before any write: it leaves the fields and
the host as they were, and the mutex in the state in which it stopped. -/
def Allocator.GetHostPortRange {W : Type} (a : Allocator W) (probe : Probe W)
    (numberOfPorts : Int) (protocol : String) :
    Option (Except String String) × Allocator W :=
  match GetHostPortRangeLocked goRWMutex probe a.pm a.world a.lock numberOfPorts protocol with
  | .ok (out, lock) => (some out.ret, { pm := out.pm, lock := lock, world := out.world })
  | .error stuck => (none, { a with lock := stuck.lock })

/-- One call `pm.GetStartHostPortRange()` on the shared allocator. -/
def Allocator.GetStartHostPortRange {W : Type} (a : Allocator W) : Option Int × Allocator W :=
  match GetStartHostPortRangeLocked goRWMutex a.pm a.lock with
  | .ok (v, lock) => (some v, { a with lock := lock })
  | .error stuck => (none, { a with lock := stuck.lock })

/-- One call `pm.GetEndHostPortRange()` on the shared allocator. -/
def Allocator.GetEndHostPortRange {W : Type} (a : Allocator W) : Option Int × Allocator W :=
  match GetEndHostPortRangeLocked goRWMutex a.pm a.lock with
  | .ok (v, lock) => (some v, { a with lock := lock })
  | .error stuck => (none, { a with lock := stuck.lock })

/-- One call `pm.GetLastAssignedHostPort()` on the shared allocator. -/
def Allocator.GetLastAssignedHostPort {W : Type} (a : Allocator W) :
    Option Int × Allocator W :=
  match GetLastAssignedHostPortLocked goRWMutex a.pm a.lock with
  | .ok (v, lock) => (some v, { a with lock := lock })
  | .error stuck => (none, { a with lock := stuck.lock })

/-- One call `pm.SetLastAssignedHostPort(port)` on the shared allocator; the call
stops, if it does, at its `Lock`, before the write. -/
def Allocator.SetLastAssignedHostPort {W : Type} (a : Allocator W) (port : Int) :
    Option Unit × Allocator W :=
  match SetLastAssignedHostPortLocked goRWMutex a.pm a.lock port with
  | .ok (pm, lock) => (some (), { a with pm := pm, lock := lock })
  | .error stuck => (none, { a with lock := stuck.lock })

/-! ## Sequences of operations -/

/-- The public operations of `PortMappingManager`. -/
inductive Op where
  | getHostPortRange (numberOfPorts : Int) (protocol : String)
  | getStartHostPortRange
  | getEndHostPortRange
  | getLastAssignedHostPort
  | setLastAssignedHostPort (port : Int)
  deriving DecidableEq, Repr

/-- One operation, called on the shared allocator: the allocator afterwards. -/
def step {W : Type} (probe : Probe W) (a : Allocator W) : Op → Allocator W
  | .getHostPortRange numberOfPorts protocol =>
    (a.GetHostPortRange probe numberOfPorts protocol).2
  | .setLastAssignedHostPort port => (a.SetLastAssignedHostPort port).2
  | .getStartHostPortRange => a.GetStartHostPortRange.2
  | .getEndHostPortRange => a.GetEndHostPortRange.2
  | .getLastAssignedHostPort => a.GetLastAssignedHostPort.2

/-- A finite sequence of operations, one after the other. -/
def run {W : Type} (probe : Probe W) (a : Allocator W) (ops : List Op) : Allocator W :=
  ops.foldl (step probe) a

/-- A sequence of `GetHostPortRange` calls, given as counts and protocols. -/
def requests (reqs : List (Int × String)) : List Op :=
  reqs.map fun r => Op.getHostPortRange r.1 r.2

/-- The cursor is unset or lies within the range. -/
def CursorInvariant (pm : portMappingManager) : Prop :=
  pm.lastAssignedHostPort = 0 ∨
    (pm.startHostPortRange ≤ pm.lastAssignedHostPort ∧
      pm.lastAssignedHostPort ≤ pm.endHostPortRange)

instance (pm : portMappingManager) : Decidable (CursorInvariant pm) := by
  unfold CursorInvariant; infer_instance

/-- Operations that keep the cursor invariant on the range `start`-`end`: a request
for at least one port, a cursor set to `0` or to a port of the range, any getter. -/
def KeepsCursor (startPort endPort : Int) : Op → Prop
  | .getHostPortRange numberOfPorts _ => 1 ≤ numberOfPorts
  | .setLastAssignedHostPort port => port = 0 ∨ (startPort ≤ port ∧ port ≤ endPort)
  | _ => True

/-- What the callers of a sequence of `GetHostPortRange` calls receive, in order
(`none` for a call that does not return). -/
def allocateAll {W : Type} (probe : Probe W) (a : Allocator W) :
    List (Int × String) → List (Option (Except String String))
  | [] => []
  | (numberOfPorts, protocol) :: rest =>
    (a.GetHostPortRange probe numberOfPorts protocol).1 ::
      allocateAll probe (a.GetHostPortRange probe numberOfPorts protocol).2 rest

/-- The probe reports occupancy correctly: `occ w x` says that port `x` is used in
the host state `w`; used ports stay used, a block is reported as found only when
all its ports lie inside the requested window and are unused, and the ports of a
block reported as found are used from then on. -/
def TracksOccupancy {W : Type} (occ : W → Int → Prop) (probe : Probe W) : Prop :=
  ∀ (c : ProbeCall) (w : W),
    (∀ x, occ w x → occ (probe c w).2 x) ∧
    ((probe c w).1.ok = true →
      ∀ x, (probe c w).1.resultStartPort ≤ x → x ≤ (probe c w).1.resultEndPort →
        c.requestStart ≤ x ∧ x ≤ c.requestEnd ∧ ¬ occ w x ∧ occ (probe c w).2 x)

/-- The ports `first, first + 1, ...`, `count` of them. -/
def block (first count : Int) : List Int :=
  (List.range count.toNat).map (fun (i : Nat) => first + (i : Int))

/-- A probe over a list of used ports that marks what it hands out: the lowest
block of the window when the window is wide enough and the block is unused. -/
def markingProbe : Probe (List Int) := fun c used =>
  if c.numberOfPorts ≤ c.requestEnd - c.requestStart + 1 ∧
      (block c.requestStart c.numberOfPorts).all (fun x => decide (x ∉ used)) then
    (⟨c.requestStart, c.requestStart + c.numberOfPorts - 1, true⟩,
      used ++ block c.requestStart c.numberOfPorts)
  else (⟨0, 0, false⟩, used)

/-! ## Discovery of the ephemeral range on Linux -/

namespace Linux

/-- `DefaultHostPortRangeStart` of `ephemeral_ports_linux.go`. -/
def DefaultHostPortRangeStart : Int := 49153

/-- `DefaultHostPortRangeEnd` of `ephemeral_ports_linux.go`. -/
def DefaultHostPortRangeEnd : Int := 65535

/-- `portRangeKernelParam`. -/
def portRangeKernelParam : String := "/proc/sys/net/ipv4/ip_local_port_range"

/-- What the operating system and the Go library answer when the kernel parameter
is read: `os.Open` fails with an error, or the file opens and
`fmt.Fscanf(_, "%d\t%d", &start, &end)` leaves the count `n` of parsed numbers,
the values of `start` and `end` (zero where nothing was stored) and its error. -/
inductive KernelParamRead where
  | openFailed (err : String)
  | scanned (n : Int) (startPort : Int) (endPort : Int) (err : Option String)
  deriving DecidableEq, Repr

/-- The read failed: the file could not be opened, or the scan did not parse two
numbers, or the scan reported an error. -/
def KernelParamRead.Failed : KernelParamRead → Prop
  | .openFailed _ => True
  | .scanned n _ _ err => n ≠ 2 ∨ err ≠ none

/-- `GetEphemeralHostPortRange` of `ephemeral_ports_linux.go`; the result is
`(start, end, err)` with `none` for a nil error. -/
def GetEphemeralHostPortRange : KernelParamRead → Int × Int × Option String
  | .openFailed err => (0, 0, some err)
  | .scanned n startPort endPort err =>
    if n ≠ 2 ∨ err ≠ none then
      let err :=
        match err with
        | none => "unexpected count of parsed numbers (" ++ Itoa n ++ ")"
        | some e => e
      (DefaultHostPortRangeStart, DefaultHostPortRangeEnd,
        some ("failed to parse ephemeral port range from " ++ portRangeKernelParam ++ ": " ++ err))
    else (startPort, endPort, none)

end Linux

/-! ## Discovery of the ephemeral range on the other platforms -/

namespace Windows

/-- `DefaultHostPortRangeStart` of `ephemeral_ports_windows.go`. -/
def DefaultHostPortRangeStart : Int := 49152

/-- `DefaultHostPortRangeEnd` of `ephemeral_ports_windows.go`. -/
def DefaultHostPortRangeEnd : Int := 65535

/-- `GetEphemeralHostPortRange` of `ephemeral_ports_windows.go`. The function returns
`DefaultPortRangeStart, DefaultPortRangeEnd, nil`; the file declares no constant of
these names, so the two are parameters. -/
def GetEphemeralHostPortRange (DefaultPortRangeStart DefaultPortRangeEnd : Int) :
    Int × Int × Option String :=
  (DefaultPortRangeStart, DefaultPortRangeEnd, none)

end Windows

namespace Unsupported

/-- `DefaultHostPortRangeStart` of `ephemeral_ports_unsupported.go`. -/
def DefaultHostPortRangeStart : Int := 49153

/-- `DefaultHostPortRangeEnd` of `ephemeral_ports_unsupported.go`. -/
def DefaultHostPortRangeEnd : Int := 65535

/-- `GetEphemeralHostPortRange` of `ephemeral_ports_unsupported.go`. The function
returns `DefaultPortRangeStart, DefaultPortRangeEnd, nil`; the file declares no
constant of these names, so the two are parameters. -/
def GetEphemeralHostPortRange (DefaultPortRangeStart DefaultPortRangeEnd : Int) :
    Int × Int × Option String :=
  (DefaultPortRangeStart, DefaultPortRangeEnd, none)

end Unsupported

/-! ## Construction -/

/-- `NewPortMappingManager`: `discovered` is what `utils.GetEphemeralHostPortRange()`
returned, the two defaults are `utils.DefaultHostPortRangeStart` and
`utils.DefaultHostPortRangeEnd` of the platform. The result is the allocator and
the warnings written to the log. -/
def NewPortMappingManager (DefaultHostPortRangeStart DefaultHostPortRangeEnd : Int)
    (discovered : Int × Int × Option String) : portMappingManager × List String :=
  let startPort := discovered.1
  let endPort := discovered.2.1
  let err := discovered.2.2
  let log :=
    match err with
    | some e =>
      ["Unable to read the ephemeral range, err: " ++ e ++
        ", falling back to the default range: " ++ Itoa DefaultHostPortRangeStart ++ "-" ++
        Itoa DefaultHostPortRangeEnd]
    | none => []
  ({ startHostPortRange := startPort, endHostPortRange := endPort, lastAssignedHostPort := 0 },
    log)

/-- `NewPortMappingManager` on Linux, from what reading the kernel parameter gave. -/
def Linux.NewPortMappingManager (read : Linux.KernelParamRead) :
    portMappingManager × List String :=
  PortMapper.NewPortMappingManager Linux.DefaultHostPortRangeStart
    Linux.DefaultHostPortRangeEnd (Linux.GetEphemeralHostPortRange read)

/-! ## Reading a range string back -/

/-- The part of a string before its first minus sign, and the part after it. -/
def splitAtMinus (cs : List Char) : List Char × List Char :=
  (cs.takeWhile (fun c => c != '-'), (cs.dropWhile (fun c => c != '-')).drop 1)

/-- A base-10 numeral of a natural number: decimal digits only, at least one, and
no leading zero (the numeral of zero is the single digit `0`). -/
def IsNumeral (ds : List Char) : Prop :=
  ds ≠ [] ∧ (∀ c ∈ ds, c.isDigit = true) ∧ (ds = ['0'] ∨ ds.head? ≠ some '0')

/-! ## Decimal rendering is injective -/

theorem digitChar_ne_minus (d : Nat) (h : d < 10) : digitChar d ≠ '-' := by
  interval_cases d <;> decide

theorem digitChar_toNat (d : Nat) (h : d < 10) : (digitChar d).toNat - 48 = d := by
  interval_cases d <;> decide

theorem natDigits_ne_minus (fuel n : Nat) : ∀ c ∈ natDigits fuel n, c ≠ '-' := by
  induction fuel generalizing n with
  | zero => intro c hc; simp [natDigits] at hc
  | succ k ih =>
    intro c hc
    unfold natDigits at hc
    split at hc
    · rename_i hlt
      simp only [List.mem_singleton] at hc
      subst hc
      exact digitChar_ne_minus n hlt
    · rcases List.mem_append.mp hc with h | h
      · exact ih _ c h
      · simp only [List.mem_singleton] at h
        subst h
        exact digitChar_ne_minus _ (Nat.mod_lt _ (by decide))

theorem natDigits_ne_nil (fuel n : Nat) : natDigits (fuel + 1) n ≠ [] := by
  unfold natDigits
  split <;> simp

theorem parseNat_append_singleton (cs : List Char) (c : Char) :
    parseNat (cs ++ [c]) = parseNat cs * 10 + (c.toNat - 48) := by
  simp [parseNat, List.foldl_append]

theorem parseNat_natDigits (fuel n : Nat) (h : n < fuel) : parseNat (natDigits fuel n) = n := by
  induction fuel generalizing n with
  | zero => omega
  | succ k ih =>
    unfold natDigits
    split
    · rename_i hlt
      simp [parseNat, digitChar_toNat n hlt]
    · rw [parseNat_append_singleton, ih (n / 10) (by omega),
        digitChar_toNat _ (Nat.mod_lt _ (by decide))]
      omega

theorem natDigits_inj (a b : Nat) (h : natDigits (a + 1) a = natDigits (b + 1) b) : a = b := by
  have ha := parseNat_natDigits (a + 1) a (by omega)
  have hb := parseNat_natDigits (b + 1) b (by omega)
  rw [h] at ha
  omega

/-- Two lists cut at a minus sign agree piecewise when neither prefix holds a minus sign. -/
theorem split_at_minus (xs ys r s : List Char) (hx : ∀ c ∈ xs, c ≠ '-')
    (hy : ∀ c ∈ ys, c ≠ '-') (h : xs ++ '-' :: r = ys ++ '-' :: s) : xs = ys ∧ r = s := by
  induction xs generalizing ys with
  | nil =>
    cases ys with
    | nil => simpa using h
    | cons y ys =>
      simp only [List.nil_append, List.cons_append, List.cons.injEq] at h
      exact absurd h.1.symm (hy y (by simp))
  | cons x xs ih =>
    cases ys with
    | nil =>
      simp only [List.nil_append, List.cons_append, List.cons.injEq] at h
      exact absurd h.1 (hx x (by simp))
    | cons y ys =>
      simp only [List.cons_append, List.cons.injEq] at h
      obtain ⟨h1, h2⟩ := ih ys (fun c hc => hx c (by simp [hc])) (fun c hc => hy c (by simp [hc])) h.2
      exact ⟨by rw [h.1, h1], h2⟩

theorem itoaChars_inj (a b : Int) (h : itoaChars a = itoaChars b) : a = b := by
  unfold itoaChars at h
  split at h <;> split at h
  · simp only [List.cons.injEq, true_and] at h
    have := natDigits_inj _ _ h
    omega
  · cases hb : natDigits (b.natAbs + 1) b.natAbs with
    | nil => exact absurd hb (natDigits_ne_nil _ _)
    | cons y ys =>
      rw [hb] at h
      simp only [List.cons.injEq] at h
      exact absurd h.1.symm (natDigits_ne_minus (b.natAbs + 1) b.natAbs y (by rw [hb]; simp))
  · cases ha : natDigits (a.natAbs + 1) a.natAbs with
    | nil => exact absurd ha (natDigits_ne_nil _ _)
    | cons y ys =>
      rw [ha] at h
      simp only [List.cons.injEq] at h
      exact absurd h.1 (natDigits_ne_minus (a.natAbs + 1) a.natAbs y (by rw [ha]; simp))
  · have := natDigits_inj _ _ h
    omega

/-- The rendering `a-b` determines both numbers: the separator is the first minus
sign that is not the sign of `a`. -/
theorem itoaChars_range_inj (a b c d : Int)
    (h : itoaChars a ++ '-' :: itoaChars b = itoaChars c ++ '-' :: itoaChars d) :
    a = c ∧ b = d := by
  have key : itoaChars a = itoaChars c ∧ itoaChars b = itoaChars d := by
    unfold itoaChars at h ⊢
    by_cases ha : a < 0 <;> by_cases hc : c < 0
    · simp only [ha, hc, if_true, List.cons_append, List.cons.injEq, true_and] at h ⊢
      exact split_at_minus _ _ _ _ (natDigits_ne_minus _ _) (natDigits_ne_minus _ _) h
    · simp only [ha, hc, if_true, if_false, List.cons_append] at h ⊢
      cases hd : natDigits (c.natAbs + 1) c.natAbs with
      | nil => exact absurd hd (natDigits_ne_nil _ _)
      | cons y ys =>
        rw [hd] at h
        simp only [List.cons_append, List.cons.injEq] at h
        exact absurd h.1.symm (natDigits_ne_minus (c.natAbs + 1) c.natAbs y (by rw [hd]; simp))
    · simp only [ha, hc, if_true, if_false, List.cons_append] at h ⊢
      cases hd : natDigits (a.natAbs + 1) a.natAbs with
      | nil => exact absurd hd (natDigits_ne_nil _ _)
      | cons y ys =>
        rw [hd] at h
        simp only [List.cons_append, List.cons.injEq] at h
        exact absurd h.1 (natDigits_ne_minus (a.natAbs + 1) a.natAbs y (by rw [hd]; simp))
    · simp only [ha, hc, if_false] at h ⊢
      exact split_at_minus _ _ _ _ (natDigits_ne_minus _ _) (natDigits_ne_minus _ _) h
  exact ⟨itoaChars_inj _ _ key.1, itoaChars_inj _ _ key.2⟩

theorem rangeString_inj (a b c d : Int) (h : rangeString a b = rangeString c d) :
    a = c ∧ b = d := by
  apply itoaChars_range_inj
  have := congrArg String.data h
  simpa [rangeString, Itoa, String.data_append] using this

/-! ## Where a call of `GetHostPortRange` stops -/

/-- Over the `sync.RWMutex` every run of `GetHostPortRange` stops: on a free mutex
at the `RLock` inside `GetStartHostPortRange`, asked for while the call itself holds
the mutex exclusively; on a mutex that is held, at its own `Lock`. -/
theorem GetHostPortRangeLocked_stops {W : Type} (probe : Probe W) (pm : portMappingManager)
    (w : W) (lock : RWMutex) (numberOfPorts : Int) (protocol : String) :
    GetHostPortRangeLocked goRWMutex probe pm w lock numberOfPorts protocol =
      .error (match lock with
        | .free => .waits .RLock .heldExclusive
        | .heldShared k => .waits .Lock (.heldShared k)
        | .heldExclusive => .waits .Lock .heldExclusive) := by
  cases lock <;> rfl

/-- The mutex after a call of `GetHostPortRange`: a free mutex is left held
exclusively by the call that stopped, a mutex that was held is as it was. -/
theorem Allocator.GetHostPortRange_eq {W : Type} (a : Allocator W) (probe : Probe W)
    (numberOfPorts : Int) (protocol : String) :
    a.GetHostPortRange probe numberOfPorts protocol =
      (none, { a with lock := match a.lock with
                | .free => .heldExclusive
                | .heldShared k => .heldShared k
                | .heldExclusive => .heldExclusive }) := by
  unfold Allocator.GetHostPortRange
  rw [GetHostPortRangeLocked_stops]
  cases a.lock <;> rfl

/-- A call of `GetHostPortRange` returns nothing to its caller. -/
theorem Allocator.GetHostPortRange_returns_nothing {W : Type} (a : Allocator W)
    (probe : Probe W) (numberOfPorts : Int) (protocol : String) :
    (a.GetHostPortRange probe numberOfPorts protocol).1 = none := by
  rw [Allocator.GetHostPortRange_eq]

/-- A call of `GetHostPortRange` leaves the fields and the host as they were. -/
theorem Allocator.GetHostPortRange_keeps_fields {W : Type} (a : Allocator W)
    (probe : Probe W) (numberOfPorts : Int) (protocol : String) :
    (a.GetHostPortRange probe numberOfPorts protocol).2.pm = a.pm ∧
      (a.GetHostPortRange probe numberOfPorts protocol).2.world = a.world := by
  rw [Allocator.GetHostPortRange_eq]
  exact ⟨rfl, rfl⟩

/-! ## The lock inside `GetHostPortRange` -/

/-- C6, as the code runs: on a free `sync.RWMutex` each accessor alone is granted
its lock and returns, but `GetHostPortRange` takes the exclusive lock and then asks
for the shared lock of the same mutex inside `GetStartHostPortRange`; the request is
made with the mutex held exclusively by the call itself, is not granted, and the
call returns neither a range nor an error, for every allocator, probe, count and
protocol. -/
theorem GetHostPortRange_waits_on_own_lock {W : Type} (probe : Probe W)
    (pm : portMappingManager) (w : W) (numberOfPorts : Int) (protocol : String) :
    GetHostPortRangeLocked goRWMutex probe pm w .free numberOfPorts protocol =
        .error (.waits .RLock .heldExclusive) ∧
      GetStartHostPortRangeLocked goRWMutex pm .free = .ok (pm.startHostPortRange, .free) ∧
      GetEndHostPortRangeLocked goRWMutex pm .free = .ok (pm.endHostPortRange, .free) ∧
      GetLastAssignedHostPortLocked goRWMutex pm .free =
        .ok (pm.lastAssignedHostPort, .free) ∧
      (∀ port, SetLastAssignedHostPortLocked goRWMutex pm .free port =
        .ok ({ pm with lastAssignedHostPort := port }, .free)) :=
  ⟨rfl, rfl, rfl, rfl, fun _ => rfl⟩

/-! ## Success and failure of `GetHostPortRange` -/

/-- C1, as the code runs: no call of `GetHostPortRange` returns and none writes the
cursor, whatever the allocator, the probe, the count and the protocol. On the
range 49153-49162 with the cursor unset and a probe that would find 49153-49155
for three ports, the caller receives nothing and the cursor stays 0 instead of
becoming 49155. -/
theorem cursor_write_is_never_reached :
    (∀ (W : Type) (a : Allocator W) (probe : Probe W) (numberOfPorts : Int) (protocol : String),
      (a.GetHostPortRange probe numberOfPorts protocol).1 = none ∧
        GetLastAssignedHostPort (a.GetHostPortRange probe numberOfPorts protocol).2.pm =
          GetLastAssignedHostPort a.pm) ∧
      (firstFitProbe ⟨3, 49153, 49162, "tcp"⟩ ()).1 = ⟨49153, 49155, true⟩ ∧
      ((Allocator.fresh 49153 49162 ()).GetHostPortRange firstFitProbe 3 "tcp").1 = none ∧
      GetLastAssignedHostPort
        ((Allocator.fresh 49153 49162 ()).GetHostPortRange firstFitProbe 3 "tcp").2.pm = 0 :=
  ⟨fun W a probe numberOfPorts protocol =>
      ⟨a.GetHostPortRange_returns_nothing probe numberOfPorts protocol,
        congrArg GetLastAssignedHostPort
          (a.GetHostPortRange_keeps_fields probe numberOfPorts protocol).1⟩,
    by decide, by decide, by decide⟩

/-- C2, as the code runs: no call of `GetHostPortRange` returns an error. On the
range 49153-49162 with the cursor at 49155 and a host without a free port, the
caller of `GetHostPortRange(3, "udp")` does not receive the error
`3 contiguous host ports unavailable`: it receives nothing. -/
theorem no_error_is_returned :
    (∀ (W : Type) (a : Allocator W) (probe : Probe W) (numberOfPorts : Int) (protocol : String)
        (msg : String),
      (a.GetHostPortRange probe numberOfPorts protocol).1 ≠ some (.error msg)) ∧
      unavailable 3 = "3 contiguous host ports unavailable" ∧
      ((⟨⟨49153, 49162, 49155⟩, .free, ()⟩ : Allocator Unit).GetHostPortRange
        neverProbe 3 "udp").1 = none :=
  ⟨fun W a probe numberOfPorts protocol msg h => by
      rw [a.GetHostPortRange_returns_nothing probe numberOfPorts protocol] at h
      exact absurd h (by simp),
    by decide, by decide⟩

/-- C3, as the code runs: the run of `GetHostPortRange` is the same for every two
probes, since it stops before the first call of the probe. On the range
49153-49162 with the cursor at 49155, a probe that would find 49156-49158 in the
window 49156-49162 is not called: the host state is as before and the caller
receives nothing. -/
theorem first_search_is_never_reached :
    (∀ (W : Type) (probe probe2 : Probe W) (pm : portMappingManager) (w : W) (lock : RWMutex)
        (numberOfPorts : Int) (protocol : String),
      GetHostPortRangeLocked goRWMutex probe pm w lock numberOfPorts protocol =
        GetHostPortRangeLocked goRWMutex probe2 pm w lock numberOfPorts protocol) ∧
      (∀ (W : Type) (a : Allocator W) (probe : Probe W) (numberOfPorts : Int)
          (protocol : String),
        (a.GetHostPortRange probe numberOfPorts protocol).2.world = a.world) ∧
      (firstFitProbe ⟨3, 49156, 49162, "tcp"⟩ ()).1 = ⟨49156, 49158, true⟩ ∧
      ((⟨⟨49153, 49162, 49155⟩, .free, ()⟩ : Allocator Unit).GetHostPortRange
        firstFitProbe 3 "tcp").1 = none :=
  ⟨fun W probe probe2 pm w lock numberOfPorts protocol => by
      rw [GetHostPortRangeLocked_stops, GetHostPortRangeLocked_stops],
    fun W a probe numberOfPorts protocol =>
      (a.GetHostPortRange_keeps_fields probe numberOfPorts protocol).2,
    by decide, by decide⟩

/-- C4, as the code runs: on the range 49153-49162 with the cursor at 49160, four
ports do not fit the forward window 49161-49162 and would be found as 49153-49156
in the window 49153-49159, but `GetHostPortRange(4, "tcp")` returns nothing and
the cursor stays at 49160. -/
theorem wraparound_is_never_reached :
    (firstFitProbe ⟨4, 49161, 49162, "tcp"⟩ ()).1.ok = false ∧
      (firstFitProbe ⟨4, 49153, 49159, "tcp"⟩ ()).1 = ⟨49153, 49156, true⟩ ∧
      ((⟨⟨49153, 49162, 49160⟩, .free, ()⟩ : Allocator Unit).GetHostPortRange
        firstFitProbe 4 "tcp").1 = none ∧
      ((⟨⟨49153, 49162, 49160⟩, .free, ()⟩ : Allocator Unit).GetHostPortRange
        firstFitProbe 4 "tcp").2.pm = ⟨49153, 49162, 49160⟩ :=
  ⟨by decide, by decide, by decide, by decide⟩

/-- C5, as the code runs: on a host without a free port `GetHostPortRange` does not
fail: with the cursor unset, and with the cursor at 49158, on the range
49153-49162 the caller of `GetHostPortRange(2, "tcp")` receives no error, and
the call on the fresh allocator leaves the mutex held exclusively. -/
theorem exhausted_range_is_not_reported :
    ((Allocator.fresh 49153 49162 ()).GetHostPortRange neverProbe 2 "tcp").1 = none ∧
      ((Allocator.fresh 49153 49162 ()).GetHostPortRange neverProbe 2 "tcp").2.lock =
        .heldExclusive ∧
      ((⟨⟨49153, 49162, 49158⟩, .free, ()⟩ : Allocator Unit).GetHostPortRange
        neverProbe 2 "tcp").1 = none ∧
      (∀ msg : String,
        ((⟨⟨49153, 49162, 49158⟩, .free, ()⟩ : Allocator Unit).GetHostPortRange
          neverProbe 2 "tcp").1 ≠ some (.error msg)) :=
  ⟨by decide, by decide, by decide, fun msg h => by
    rw [Allocator.GetHostPortRange_returns_nothing] at h
    exact absurd h (by simp)⟩

/-! ## The cursor invariant -/

theorem firstFitProbe_honours_contract : HonoursContract firstFitProbe := by
  intro c w h
  unfold firstFitProbe at h ⊢
  split_ifs at h ⊢ with hc
  simp
  omega

/-- A call of `SetLastAssignedHostPort` that returns has written the port and
nothing else; a call that does not return has written nothing. -/
theorem Allocator.SetLastAssignedHostPort_pm {W : Type} (a : Allocator W) (port : Int) :
    (a.SetLastAssignedHostPort port).2.pm = a.pm ∨
      (a.SetLastAssignedHostPort port).2.pm = PortMapper.SetLastAssignedHostPort a.pm port := by
  obtain ⟨pm, lock, w⟩ := a
  cases lock
  · right; rfl
  · left; rfl
  · left; rfl

/-- The getters leave the fields and the host as they were. -/
theorem Allocator.getters_keep_fields {W : Type} (a : Allocator W) :
    (a.GetStartHostPortRange.2.pm = a.pm ∧ a.GetStartHostPortRange.2.world = a.world) ∧
      (a.GetEndHostPortRange.2.pm = a.pm ∧ a.GetEndHostPortRange.2.world = a.world) ∧
      (a.GetLastAssignedHostPort.2.pm = a.pm ∧ a.GetLastAssignedHostPort.2.world = a.world) := by
  refine ⟨?_, ?_, ?_⟩
  · unfold Allocator.GetStartHostPortRange
    split <;> exact ⟨rfl, rfl⟩
  · unfold Allocator.GetEndHostPortRange
    split <;> exact ⟨rfl, rfl⟩
  · unfold Allocator.GetLastAssignedHostPort
    split <;> exact ⟨rfl, rfl⟩

theorem step_keeps_cursor {W : Type} (probe : Probe W) (a : Allocator W) (op : Op)
    (hinv : CursorInvariant a.pm)
    (hop : KeepsCursor a.pm.startHostPortRange a.pm.endHostPortRange op) :
    CursorInvariant (step probe a op).pm ∧
      (step probe a op).pm.startHostPortRange = a.pm.startHostPortRange ∧
      (step probe a op).pm.endHostPortRange = a.pm.endHostPortRange := by
  cases op with
  | getHostPortRange numberOfPorts protocol =>
    have h := (a.GetHostPortRange_keeps_fields probe numberOfPorts protocol).1
    show CursorInvariant (a.GetHostPortRange probe numberOfPorts protocol).2.pm ∧
      (a.GetHostPortRange probe numberOfPorts protocol).2.pm.startHostPortRange = _ ∧
      (a.GetHostPortRange probe numberOfPorts protocol).2.pm.endHostPortRange = _
    rw [h]
    exact ⟨hinv, rfl, rfl⟩
  | setLastAssignedHostPort port =>
    show CursorInvariant (a.SetLastAssignedHostPort port).2.pm ∧
      (a.SetLastAssignedHostPort port).2.pm.startHostPortRange = _ ∧
      (a.SetLastAssignedHostPort port).2.pm.endHostPortRange = _
    rcases a.SetLastAssignedHostPort_pm port with h | h
    · rw [h]
      exact ⟨hinv, rfl, rfl⟩
    · rw [h]
      exact ⟨by simpa [CursorInvariant, KeepsCursor] using hop, rfl, rfl⟩
  | getStartHostPortRange =>
    show CursorInvariant a.GetStartHostPortRange.2.pm ∧
      a.GetStartHostPortRange.2.pm.startHostPortRange = _ ∧
      a.GetStartHostPortRange.2.pm.endHostPortRange = _
    rw [a.getters_keep_fields.1.1]
    exact ⟨hinv, rfl, rfl⟩
  | getEndHostPortRange =>
    show CursorInvariant a.GetEndHostPortRange.2.pm ∧
      a.GetEndHostPortRange.2.pm.startHostPortRange = _ ∧
      a.GetEndHostPortRange.2.pm.endHostPortRange = _
    rw [a.getters_keep_fields.2.1.1]
    exact ⟨hinv, rfl, rfl⟩
  | getLastAssignedHostPort =>
    show CursorInvariant a.GetLastAssignedHostPort.2.pm ∧
      a.GetLastAssignedHostPort.2.pm.startHostPortRange = _ ∧
      a.GetLastAssignedHostPort.2.pm.endHostPortRange = _
    rw [a.getters_keep_fields.2.2.1]
    exact ⟨hinv, rfl, rfl⟩

theorem run_keeps_cursor {W : Type} (probe : Probe W) (ops : List Op) (a : Allocator W)
    (hinv : CursorInvariant a.pm)
    (hops : ∀ op ∈ ops, KeepsCursor a.pm.startHostPortRange a.pm.endHostPortRange op) :
    CursorInvariant (run probe a ops).pm ∧
      (run probe a ops).pm.startHostPortRange = a.pm.startHostPortRange ∧
      (run probe a ops).pm.endHostPortRange = a.pm.endHostPortRange := by
  induction ops generalizing a with
  | nil => exact ⟨hinv, rfl, rfl⟩
  | cons op rest ih =>
    obtain ⟨k1, k2, k3⟩ := step_keeps_cursor probe a op hinv (hops op (by simp))
    have := ih (step probe a op) k1
      (by rw [k2, k3]; exact fun o ho => hops o (by simp [ho]))
    rw [k2, k3] at this
    exact this

/-- C7, as the claim states it, fails on the range 49153-65535 against a probe that
honours its contract: `SetLastAssignedHostPort(70000)` on the fresh allocator
returns and leaves the cursor at 70000, non-zero and outside the range. -/
theorem cursor_invariant_counterexample :
    HonoursContract firstFitProbe ∧
      ((Allocator.fresh 49153 65535 ()).SetLastAssignedHostPort 70000).1 = some () ∧
      (run firstFitProbe (Allocator.fresh 49153 65535 ())
          [.setLastAssignedHostPort 70000]).pm = ⟨49153, 65535, 70000⟩ ∧
      ¬ CursorInvariant
        (run firstFitProbe (Allocator.fresh 49153 65535 ())
          [.setLastAssignedHostPort 70000]).pm :=
  ⟨firstFitProbe_honours_contract, by decide, by decide, by decide⟩

/-- C7, amended: in every state reached from a fresh allocator (range with
`1 ≤ start ≤ end ≤ 65535`, cursor 0) by a finite sequence of the public operations
in which every `GetHostPortRange` asks for at least one port, against a probe that
honours its contract, and every `SetLastAssignedHostPort` sets 0 or a port of the
range, the cursor is 0 or lies within the range, and the range is the initial one. -/
theorem cursor_invariant_of_valid_operations {W : Type} (probe : Probe W)
    (_hc : HonoursContract probe) (startPort endPort : Int) (w : W) (ops : List Op)
    (_h1 : 1 ≤ startPort) (_h2 : startPort ≤ endPort) (_h3 : endPort ≤ 65535)
    (hops : ∀ op ∈ ops, KeepsCursor startPort endPort op) :
    CursorInvariant (run probe (Allocator.fresh startPort endPort w) ops).pm ∧
      (run probe (Allocator.fresh startPort endPort w) ops).pm.startHostPortRange = startPort ∧
      (run probe (Allocator.fresh startPort endPort w) ops).pm.endHostPortRange = endPort :=
  run_keeps_cursor probe ops (Allocator.fresh startPort endPort w) (Or.inl rfl) hops

/-- C7, amended, on the range 49153-49162: the cursor is set to 49158 and read, a
request for three ports follows, and a later `SetLastAssignedHostPort(49153)`
finds the mutex held; the cursor is 49158 at the end. -/
theorem cursor_invariant_of_valid_operations_witness :
    (run firstFitProbe (Allocator.fresh 49153 49162 ())
        [.setLastAssignedHostPort 49158, .getLastAssignedHostPort,
          .getHostPortRange 3 "tcp", .setLastAssignedHostPort 49153]).pm =
        ⟨49153, 49162, 49158⟩ ∧
      CursorInvariant (run firstFitProbe (Allocator.fresh 49153 49162 ())
        [.setLastAssignedHostPort 49158, .getLastAssignedHostPort,
          .getHostPortRange 3 "tcp", .setLastAssignedHostPort 49153]).pm :=
  ⟨by decide,
    (cursor_invariant_of_valid_operations firstFitProbe firstFitProbe_honours_contract
      49153 49162 ()
      [.setLastAssignedHostPort 49158, .getLastAssignedHostPort,
        .getHostPortRange 3 "tcp", .setLastAssignedHostPort 49153]
      (by decide) (by decide) (by decide)
      (by intro op hop; simp only [List.mem_cons, List.mem_singleton, List.not_mem_nil,
            or_false] at hop
          rcases hop with h | h | h | h <;> subst h <;> simp [KeepsCursor])).1⟩

/-! ## Ranges handed out in a sequence of calls -/

theorem allocateAll_returns_nothing {W : Type} (probe : Probe W) (reqs : List (Int × String))
    (a : Allocator W) : ∀ r ∈ allocateAll probe a reqs, r = none := by
  induction reqs generalizing a with
  | nil => intro r hr; simp [allocateAll] at hr
  | cons q rest ih =>
    obtain ⟨numberOfPorts, protocol⟩ := q
    intro r hr
    simp only [allocateAll, List.mem_cons] at hr
    rcases hr with h | h
    · rw [h]
      exact a.GetHostPortRange_returns_nothing probe numberOfPorts protocol
    · exact ih _ r h

theorem mem_block (first count x : Int) :
    x ∈ block first count ↔ first ≤ x ∧ x < first + count := by
  unfold block
  constructor
  · intro h
    obtain ⟨i, hi, rfl⟩ := List.mem_map.mp h
    rw [List.mem_range] at hi
    omega
  · rintro ⟨h1, h2⟩
    exact List.mem_map.mpr ⟨(x - first).toNat, List.mem_range.mpr (by omega), by omega⟩

theorem markingProbe_tracks_occupancy :
    TracksOccupancy (fun (used : List Int) (x : Int) => x ∈ used) markingProbe := by
  intro c used
  unfold markingProbe
  split_ifs with hc
  · refine ⟨fun x hx => List.mem_append_left _ hx, fun _ x h1 h2 => ?_⟩
    have hall := hc.2
    simp only [List.all_eq_true, decide_eq_true_eq] at hall
    have hmem : x ∈ block c.requestStart c.numberOfPorts :=
      (mem_block _ _ _).mpr ⟨h1, by dsimp only at h2; omega⟩
    dsimp only at h1 h2
    exact ⟨h1, by omega, hall x hmem, List.mem_append_right _ hmem⟩
  · exact ⟨fun x hx => hx, fun h => by simp at h⟩

/-- C8, as the code runs: in a sequence of `GetHostPortRange` calls no call returns
a range, whatever the allocator and the probe. On the fresh allocator of the
range 49153-49162, with a probe that reports occupancy correctly, marks what it
hands out and would find the port 49153, two requests for one port return
nothing: there is no successful call whose range could be compared with another. -/
theorem no_range_is_returned_in_sequence :
    (∀ (W : Type) (probe : Probe W) (a : Allocator W) (reqs : List (Int × String)),
      ∀ r ∈ allocateAll probe a reqs, r = none) ∧
      TracksOccupancy (fun (used : List Int) (x : Int) => x ∈ used) markingProbe ∧
      (markingProbe ⟨1, 49153, 49162, "tcp"⟩ []).1 = ⟨49153, 49153, true⟩ ∧
      allocateAll markingProbe (Allocator.fresh 49153 49162 []) [(1, "tcp"), (1, "tcp")] =
        [none, none] :=
  ⟨fun W probe a reqs => allocateAll_returns_nothing probe reqs a,
    markingProbe_tracks_occupancy, by decide, by decide⟩

/-! ## Requests for no port or for a negative number of ports -/

/-- C9, as the claim states it, fails on the fresh allocator of the range
49153-65535 with count 0: the caller of `GetHostPortRange(0, "tcp")` receives no
error. -/
theorem nonpositive_count_counterexample :
    ((Allocator.fresh 49153 65535 ()).GetHostPortRange neverProbe 0 "tcp").1 = none ∧
      (∀ msg : String,
        ((Allocator.fresh 49153 65535 ()).GetHostPortRange neverProbe 0 "tcp").1 ≠
          some (.error msg)) :=
  ⟨by decide, fun msg h => by
    rw [Allocator.GetHostPortRange_returns_nothing] at h
    exact absurd h (by simp)⟩

/-- C9, amended: `GetHostPortRange` does not reject a request on account of its
count: for every count, the counts `≤ 0` among them, the caller receives no error
for it; the call leaves the range unchanged, and leaves the cursor unchanged
unless it returns a range. -/
theorem nonpositive_count_is_not_rejected {W : Type} (a : Allocator W) (probe : Probe W)
    (numberOfPorts : Int) (protocol : String) :
    (∀ msg : String,
      (a.GetHostPortRange probe numberOfPorts protocol).1 ≠ some (.error msg)) ∧
      (a.GetHostPortRange probe numberOfPorts protocol).2.pm.startHostPortRange =
        a.pm.startHostPortRange ∧
      (a.GetHostPortRange probe numberOfPorts protocol).2.pm.endHostPortRange =
        a.pm.endHostPortRange ∧
      ((∀ str : String,
          (a.GetHostPortRange probe numberOfPorts protocol).1 ≠ some (.ok str)) →
        (a.GetHostPortRange probe numberOfPorts protocol).2.pm.lastAssignedHostPort =
          a.pm.lastAssignedHostPort) := by
  have h := (a.GetHostPortRange_keeps_fields probe numberOfPorts protocol).1
  refine ⟨fun msg hm => ?_, by rw [h], by rw [h], fun _ => by rw [h]⟩
  rw [a.GetHostPortRange_returns_nothing probe numberOfPorts protocol] at hm
  exact absurd hm (by simp)

/-- C9, amended, for a request of -1 ports on the range 49153-49162 with the cursor
at 49155: no call returns a range, and the cursor stays at 49155. -/
theorem nonpositive_count_is_not_rejected_witness :
    ((⟨⟨49153, 49162, 49155⟩, .free, ()⟩ : Allocator Unit).GetHostPortRange
        neverProbe (-1) "tcp").2.pm.lastAssignedHostPort = 49155 :=
  (nonpositive_count_is_not_rejected (⟨⟨49153, 49162, 49155⟩, .free, ()⟩ : Allocator Unit)
    neverProbe (-1) "tcp").2.2.2
    (fun str h => by
      rw [Allocator.GetHostPortRange_returns_nothing] at h
      exact absurd h (by simp))

/-! ## Discovery of the ephemeral range on Linux: the failures -/

/-- A scan that fails returns the default range together with an error. -/
theorem Linux.scan_failure_returns_default (n startPort endPort : Int) (err : Option String)
    (h : n ≠ 2 ∨ err ≠ none) :
    ∃ msg, Linux.GetEphemeralHostPortRange (.scanned n startPort endPort err) =
      (49153, 65535, some msg) := by
  simp only [Linux.GetEphemeralHostPortRange]
  rw [if_pos h]
  exact ⟨_, rfl⟩

/-- C10, as the code runs: when the kernel parameter file cannot be opened,
`GetEphemeralHostPortRange` returns `(0, 0, err)` with the error of `os.Open`, and
not the default range `(49153, 65535)` that it returns when the scan fails. -/
theorem Linux.open_failure_returns_zero_range (err : String) :
    Linux.KernelParamRead.Failed (.openFailed err) ∧
      Linux.GetEphemeralHostPortRange (.openFailed err) = (0, 0, some err) ∧
      (Linux.GetEphemeralHostPortRange (.openFailed err)).1 ≠ Linux.DefaultHostPortRangeStart ∧
      (Linux.GetEphemeralHostPortRange (.openFailed err)).2.1 ≠ Linux.DefaultHostPortRangeEnd :=
  ⟨trivial, rfl, by show (0 : Int) ≠ 49153; decide, by show (0 : Int) ≠ 65535; decide⟩

/-! ## Construction of the allocator -/

/-- C11, as the code runs: `NewPortMappingManager` always returns an allocator
with the cursor unset, and its range is the pair that the range provider returned,
with or without an error. After a failed `os.Open` on Linux the provider returns
`(0, 0, err)`: the allocator has the range 0-0, not the default 49153-65535 that
the warning written to the log announces. -/
theorem NewPortMappingManager_stores_discovered_range :
    (∀ (defaultStart defaultEnd startPort endPort : Int) (err : Option String),
      (NewPortMappingManager defaultStart defaultEnd (startPort, endPort, err)).1 =
        ⟨startPort, endPort, 0⟩) ∧
    (∀ err : String,
      (Linux.NewPortMappingManager (.openFailed err)).1 = ⟨0, 0, 0⟩ ∧
      GetStartHostPortRange (Linux.NewPortMappingManager (.openFailed err)).1 ≠
        Linux.DefaultHostPortRangeStart ∧
      GetEndHostPortRange (Linux.NewPortMappingManager (.openFailed err)).1 ≠
        Linux.DefaultHostPortRangeEnd ∧
      (Linux.NewPortMappingManager (.openFailed err)).2 =
        ["Unable to read the ephemeral range, err: " ++ err ++
          ", falling back to the default range: " ++ "49153" ++ "-" ++ "65535"]) := by
  refine ⟨fun _ _ _ _ _ => rfl, fun err => ⟨rfl, ?_, ?_, ?_⟩⟩
  · show (0 : Int) ≠ 49153
    decide
  · show (0 : Int) ≠ 65535
    decide
  · have h1 : Itoa 49153 = "49153" := by decide
    have h2 : Itoa 65535 = "65535" := by decide
    simp [Linux.NewPortMappingManager, NewPortMappingManager, Linux.GetEphemeralHostPortRange,
      Linux.DefaultHostPortRangeStart, Linux.DefaultHostPortRangeEnd, h1, h2]

/-! ## The cursor under sequences of requests -/

theorem run_requests_keep_fields {W : Type} (probe : Probe W) (reqs : List (Int × String))
    (a : Allocator W) : (run probe a (requests reqs)).pm = a.pm := by
  induction reqs generalizing a with
  | nil => rfl
  | cons q rest ih =>
    have h := ih ((a.GetHostPortRange probe q.1 q.2).2)
    rw [(a.GetHostPortRange_keeps_fields probe q.1 q.2).1] at h
    exact h

/-- C12, as the code runs: through `GetHostPortRange` the cursor never leaves the
unset state. From a fresh allocator, after any sequence of `GetHostPortRange`
calls, against any probe, the cursor is 0; on the range 49153-49162 two requests
for three ports, the first of which would be found as 49153-49155, return nothing,
so there is no first successful call that assigns the cursor. -/
theorem cursor_stays_unset :
    (∀ (W : Type) (probe : Probe W) (startPort endPort : Int) (w : W)
        (reqs : List (Int × String)),
      (run probe (Allocator.fresh startPort endPort w) (requests reqs)).pm =
        ⟨startPort, endPort, 0⟩) ∧
      HonoursContract firstFitProbe ∧
      (firstFitProbe ⟨3, 49153, 49162, "tcp"⟩ ()).1 = ⟨49153, 49155, true⟩ ∧
      allocateAll firstFitProbe (Allocator.fresh 49153 49162 ()) [(3, "tcp"), (3, "tcp")] =
        [none, none] ∧
      (run firstFitProbe (Allocator.fresh 49153 49162 ())
        (requests [(3, "tcp"), (3, "tcp")])).pm.lastAssignedHostPort = 0 :=
  ⟨fun W probe startPort endPort w reqs =>
      run_requests_keep_fields probe reqs (Allocator.fresh startPort endPort w),
    firstFitProbe_honours_contract, by decide, by decide, by decide⟩

/-! ## The first allocation and the worked scenario -/

/-- C13, as the code runs: the first `GetHostPortRange` on a fresh allocator returns
nothing, for every range, count, protocol and probe. On the range 49153-49162 with
every port free, four ports would be found as 49153-49156, and the caller of
`GetHostPortRange(4, "tcp")` receives nothing. -/
theorem first_allocation_does_not_return :
    (∀ (W : Type) (probe : Probe W) (startPort endPort count : Int) (protocol : String)
        (w : W),
      ((Allocator.fresh startPort endPort w).GetHostPortRange probe count protocol).1 =
        none) ∧
      HonoursContract firstFitProbe ∧
      (firstFitProbe ⟨4, 49153, 49162, "tcp"⟩ ()).1 = ⟨49153, 49156, true⟩ ∧
      ((Allocator.fresh 49153 49162 ()).GetHostPortRange firstFitProbe 4 "tcp").1 = none :=
  ⟨fun W probe startPort endPort count protocol w =>
      (Allocator.fresh startPort endPort w).GetHostPortRange_returns_nothing probe count
        protocol,
    firstFitProbe_honours_contract, by decide, by decide⟩

/-- C14, as the code runs: with the range 49153-49162, the cursor at 0 and the
first-fit probe, the calls `GetHostPortRange(3)`, `GetHostPortRange(3)`,
`GetHostPortRange(5)` return nothing, for every protocol: the first stops at the
`RLock` inside `GetStartHostPortRange` and leaves the mutex held exclusively, the
second and the third stop at their `Lock`; the cursor is 0 at the end, not 49157. -/
theorem worked_scenario_on_the_code (protocol : String) :
    allocateAll firstFitProbe (Allocator.fresh 49153 49162 ())
        [(3, protocol), (3, protocol), (5, protocol)] = [none, none, none] ∧
      GetHostPortRangeLocked goRWMutex firstFitProbe ⟨49153, 49162, 0⟩ () .free 3 protocol =
        .error (.waits .RLock .heldExclusive) ∧
      ((Allocator.fresh 49153 49162 ()).GetHostPortRange firstFitProbe 3 protocol).2.lock =
        .heldExclusive ∧
      GetHostPortRangeLocked goRWMutex firstFitProbe ⟨49153, 49162, 0⟩ () .heldExclusive
          3 protocol = .error (.waits .Lock .heldExclusive) ∧
      GetHostPortRangeLocked goRWMutex firstFitProbe ⟨49153, 49162, 0⟩ () .heldExclusive
          5 protocol = .error (.waits .Lock .heldExclusive) ∧
      (run firstFitProbe (Allocator.fresh 49153 49162 ())
        (requests [(3, protocol), (3, protocol), (5, protocol)])).pm =
        ⟨49153, 49162, 0⟩ := by
  refine ⟨?_, rfl, rfl, rfl, rfl, run_requests_keep_fields _ _ _⟩
  simp [allocateAll, Allocator.GetHostPortRange_returns_nothing]

/-! ## What range discovery returns -/

/-- C15, as the claim states it, fails on Linux: when the scan of the kernel
parameter leaves the two numbers 5 and 3 (file content `5<TAB>3`), or 0 and 70000,
`GetEphemeralHostPortRange` returns them with a nil error, and neither pair
satisfies `1 ≤ start ≤ end ≤ 65535`. -/
theorem discovered_range_counterexample :
    Linux.GetEphemeralHostPortRange (.scanned 2 5 3 none) = (5, 3, none) ∧
      ¬ ((1 : Int) ≤ 5 ∧ (5 : Int) ≤ 3 ∧ (3 : Int) ≤ 65535) ∧
      Linux.GetEphemeralHostPortRange (.scanned 2 0 70000 none) = (0, 70000, none) ∧
      ¬ ((1 : Int) ≤ 0 ∧ (0 : Int) ≤ 70000 ∧ (70000 : Int) ≤ 65535) :=
  ⟨by decide, by decide, by decide, by decide⟩

/-- C15, amended: on Linux `GetEphemeralHostPortRange` returns `(start, end, nil)`
exactly when the scan parsed two numbers without an error, and the pair returned
is the two numbers as scanned; their order and their bounds are not checked. -/
theorem discovered_range_is_scanned_pair (read : Linux.KernelParamRead)
    (startPort endPort : Int) :
    Linux.GetEphemeralHostPortRange read = (startPort, endPort, none) ↔
      read = .scanned 2 startPort endPort none := by
  constructor
  · intro h
    cases read with
    | openFailed err => simp [Linux.GetEphemeralHostPortRange] at h
    | scanned n a b err =>
      simp only [Linux.GetEphemeralHostPortRange] at h
      split_ifs at h with hc
      · simp at h
      · simp only [not_or, not_not] at hc
        simp only [Prod.mk.injEq, and_true] at h
        rw [hc.1, hc.2, h.1, h.2]
  · rintro rfl
    simp [Linux.GetEphemeralHostPortRange]

/-- C15, amended, for the usual content of the kernel parameter, 32768 and 60999. -/
theorem discovered_range_is_scanned_pair_witness :
    Linux.GetEphemeralHostPortRange (.scanned 2 32768 60999 none) = (32768, 60999, none) :=
  (discovered_range_is_scanned_pair (.scanned 2 32768 60999 none) 32768 60999).mpr rfl

/-- C16, as the code runs: on Windows and on the platforms that are neither Linux
nor Windows, `GetEphemeralHostPortRange` returns the pair named
`DefaultPortRangeStart, DefaultPortRangeEnd`, whatever that pair is, with a nil
error; the constants that the file declares, `DefaultHostPortRangeStart` and
`DefaultHostPortRangeEnd`, play no part in the result. -/
theorem other_platforms_return_other_names :
    (∀ a b : Int, Windows.GetEphemeralHostPortRange a b = (a, b, none)) ∧
      (∀ a b : Int, Unsupported.GetEphemeralHostPortRange a b = (a, b, none)) ∧
      Windows.GetEphemeralHostPortRange 0 0 ≠
        (Windows.DefaultHostPortRangeStart, Windows.DefaultHostPortRangeEnd, none) ∧
      Unsupported.GetEphemeralHostPortRange 0 0 ≠
        (Unsupported.DefaultHostPortRangeStart, Unsupported.DefaultHostPortRangeEnd, none) :=
  ⟨fun _ _ => rfl, fun _ _ => rfl, by decide, by decide⟩

/-! ## The range is never written -/

/-- C18: for every state of the allocator, probe and host, every public operation
leaves `startHostPortRange` and `endHostPortRange` as they were, `GetHostPortRange`
with any arguments and `SetLastAssignedHostPort` with any port included; the three
getters leave every field and the host as they were, and return the field they are
named after. -/
theorem range_is_never_mutated {W : Type} (probe : Probe W) (a : Allocator W) (op : Op) :
    (step probe a op).pm.startHostPortRange = a.pm.startHostPortRange ∧
      (step probe a op).pm.endHostPortRange = a.pm.endHostPortRange ∧
      ((step probe a .getStartHostPortRange).pm = a.pm ∧
        (step probe a .getStartHostPortRange).world = a.world) ∧
      ((step probe a .getEndHostPortRange).pm = a.pm ∧
        (step probe a .getEndHostPortRange).world = a.world) ∧
      ((step probe a .getLastAssignedHostPort).pm = a.pm ∧
        (step probe a .getLastAssignedHostPort).world = a.world) ∧
      GetStartHostPortRange a.pm = a.pm.startHostPortRange ∧
      GetEndHostPortRange a.pm = a.pm.endHostPortRange ∧
      GetLastAssignedHostPort a.pm = a.pm.lastAssignedHostPort ∧
      (∀ v, a.GetStartHostPortRange.1 = some v → v = a.pm.startHostPortRange) ∧
      (∀ v, a.GetEndHostPortRange.1 = some v → v = a.pm.endHostPortRange) ∧
      (∀ v, a.GetLastAssignedHostPort.1 = some v → v = a.pm.lastAssignedHostPort) ∧
      (Allocator.mk a.pm .free a.world).GetStartHostPortRange.1 =
        some a.pm.startHostPortRange ∧
      (Allocator.mk a.pm .free a.world).GetEndHostPortRange.1 = some a.pm.endHostPortRange ∧
      (Allocator.mk a.pm .free a.world).GetLastAssignedHostPort.1 =
        some a.pm.lastAssignedHostPort := by
  have hrange : (step probe a op).pm.startHostPortRange = a.pm.startHostPortRange ∧
      (step probe a op).pm.endHostPortRange = a.pm.endHostPortRange := by
    cases op with
    | getHostPortRange numberOfPorts protocol =>
      show (a.GetHostPortRange probe numberOfPorts protocol).2.pm.startHostPortRange = _ ∧
        (a.GetHostPortRange probe numberOfPorts protocol).2.pm.endHostPortRange = _
      rw [(a.GetHostPortRange_keeps_fields probe numberOfPorts protocol).1]
      exact ⟨rfl, rfl⟩
    | setLastAssignedHostPort port =>
      show (a.SetLastAssignedHostPort port).2.pm.startHostPortRange = _ ∧
        (a.SetLastAssignedHostPort port).2.pm.endHostPortRange = _
      rcases a.SetLastAssignedHostPort_pm port with h | h <;> rw [h] <;> exact ⟨rfl, rfl⟩
    | getStartHostPortRange =>
      show a.GetStartHostPortRange.2.pm.startHostPortRange = _ ∧
        a.GetStartHostPortRange.2.pm.endHostPortRange = _
      rw [a.getters_keep_fields.1.1]
      exact ⟨rfl, rfl⟩
    | getEndHostPortRange =>
      show a.GetEndHostPortRange.2.pm.startHostPortRange = _ ∧
        a.GetEndHostPortRange.2.pm.endHostPortRange = _
      rw [a.getters_keep_fields.2.1.1]
      exact ⟨rfl, rfl⟩
    | getLastAssignedHostPort =>
      show a.GetLastAssignedHostPort.2.pm.startHostPortRange = _ ∧
        a.GetLastAssignedHostPort.2.pm.endHostPortRange = _
      rw [a.getters_keep_fields.2.2.1]
      exact ⟨rfl, rfl⟩
  refine ⟨hrange.1, hrange.2, a.getters_keep_fields.1, a.getters_keep_fields.2.1,
    a.getters_keep_fields.2.2, rfl, rfl, rfl, ?_, ?_, ?_, rfl, rfl, rfl⟩
  · obtain ⟨pm, lock, w⟩ := a
    intro v hv
    cases lock with
    | free => exact (Option.some.inj hv).symm
    | heldShared n =>
      cases n with
      | zero => exact (Option.some.inj hv).symm
      | succ k => exact (Option.some.inj hv).symm
    | heldExclusive => exact absurd hv (by simp [Allocator.GetStartHostPortRange,
        GetStartHostPortRangeLocked, goRWMutex, RWMutex.RLock, bind, Except.bind])
  · obtain ⟨pm, lock, w⟩ := a
    intro v hv
    cases lock with
    | free => exact (Option.some.inj hv).symm
    | heldShared n =>
      cases n with
      | zero => exact (Option.some.inj hv).symm
      | succ k => exact (Option.some.inj hv).symm
    | heldExclusive => exact absurd hv (by simp [Allocator.GetEndHostPortRange,
        GetEndHostPortRangeLocked, goRWMutex, RWMutex.RLock, bind, Except.bind])
  · obtain ⟨pm, lock, w⟩ := a
    intro v hv
    cases lock with
    | free => exact (Option.some.inj hv).symm
    | heldShared n =>
      cases n with
      | zero => exact (Option.some.inj hv).symm
      | succ k => exact (Option.some.inj hv).symm
    | heldExclusive => exact absurd hv (by simp [Allocator.GetLastAssignedHostPort,
        GetLastAssignedHostPortLocked, goRWMutex, RWMutex.RLock, bind, Except.bind])

/-! ## The format of the returned string -/

theorem digitChar_isDigit (d : Nat) (h : d < 10) : (digitChar d).isDigit = true := by
  interval_cases d <;> decide

theorem digitChar_ne_zero (d : Nat) (h0 : 1 ≤ d) (h : d < 10) : digitChar d ≠ '0' := by
  interval_cases d <;> decide

theorem natDigits_isDigit (fuel n : Nat) : ∀ c ∈ natDigits fuel n, c.isDigit = true := by
  induction fuel generalizing n with
  | zero => intro c hc; simp [natDigits] at hc
  | succ k ih =>
    intro c hc
    unfold natDigits at hc
    split at hc
    · rename_i hlt
      simp only [List.mem_singleton] at hc
      subst hc
      exact digitChar_isDigit n hlt
    · rcases List.mem_append.mp hc with h | h
      · exact ih _ c h
      · simp only [List.mem_singleton] at h
        subst h
        exact digitChar_isDigit _ (Nat.mod_lt _ (by decide))

theorem natDigits_head (fuel n : Nat) (h1 : 1 ≤ n) (h : n < fuel) :
    (natDigits fuel n).head? ≠ some '0' := by
  induction fuel generalizing n with
  | zero => omega
  | succ k ih =>
    unfold natDigits
    split
    · rename_i hlt
      simp only [List.head?_cons, ne_eq, Option.some.injEq]
      exact digitChar_ne_zero n h1 hlt
    · have hk : ∃ j, k = j + 1 := ⟨k - 1, by omega⟩
      obtain ⟨j, rfl⟩ := hk
      rw [List.head?_append_of_ne_nil _ (natDigits_ne_nil j (n / 10))]
      exact ih (n / 10) (by omega) (by omega)

theorem natDigits_isNumeral (n : Nat) : IsNumeral (natDigits (n + 1) n) := by
  refine ⟨natDigits_ne_nil n n, natDigits_isDigit _ _, ?_⟩
  rcases Nat.eq_zero_or_pos n with h0 | hpos
  · left
    subst h0
    decide
  · right
    exact natDigits_head _ _ hpos (by omega)

theorem splitAtMinus_append (ds de : List Char) (h : ∀ c ∈ ds, c ≠ '-') :
    splitAtMinus (ds ++ '-' :: de) = (ds, de) := by
  induction ds with
  | nil => simp [splitAtMinus]
  | cons d ds ih =>
    have hd : d ≠ '-' := h d (by simp)
    have ih2 := ih (fun c hc => h c (by simp [hc]))
    simp only [splitAtMinus, Prod.mk.injEq] at ih2
    simp [splitAtMinus, hd, ih2.1, ih2.2]

theorem count_minus_append (ds de : List Char) (h1 : ∀ c ∈ ds, c ≠ '-')
    (h2 : ∀ c ∈ de, c ≠ '-') : (ds ++ '-' :: de).count '-' = 1 := by
  have e1 : ds.count '-' = 0 := List.count_eq_zero.mpr (fun hm => h1 _ hm rfl)
  have e2 : de.count '-' = 0 := List.count_eq_zero.mpr (fun hm => h2 _ hm rfl)
  rw [List.count_append, List.count_cons_self, e1, e2]

theorem rangeString_of_nonneg (rs re : Int) (h0 : 0 ≤ rs) (h1 : 0 ≤ re) :
    rangeString rs re =
      String.mk (natDigits (rs.natAbs + 1) rs.natAbs ++ '-' ::
        natDigits (re.natAbs + 1) re.natAbs) := by
  have e0 : itoaChars rs = natDigits (rs.natAbs + 1) rs.natAbs := by
    unfold itoaChars
    rw [if_neg (by omega)]
  have e1 : itoaChars re = natDigits (re.natAbs + 1) re.natAbs := by
    unfold itoaChars
    rw [if_neg (by omega)]
  apply String.ext
  simp [rangeString, Itoa, String.data_append, e0, e1]

/-- The string built by line 89 for a pair `rs, re ≥ 0`: the base-10 numeral of
`rs`, one minus sign, the base-10 numeral of `re`; splitting at the minus sign and
reading both halves gives `rs` and `re` back. -/
theorem rangeString_format (rs re : Int) (h0 : 0 ≤ rs) (h1 : 0 ≤ re) :
    ∃ ds de : List Char,
      rangeString rs re = String.mk (ds ++ '-' :: de) ∧
        IsNumeral ds ∧ IsNumeral de ∧
        (parseNat ds : Int) = rs ∧ (parseNat de : Int) = re ∧
        (ds ++ '-' :: de).count '-' = 1 ∧
        splitAtMinus (ds ++ '-' :: de) = (ds, de) := by
  refine ⟨natDigits (rs.natAbs + 1) rs.natAbs, natDigits (re.natAbs + 1) re.natAbs,
    rangeString_of_nonneg rs re h0 h1, natDigits_isNumeral _, natDigits_isNumeral _, ?_, ?_,
    count_minus_append _ _ (natDigits_ne_minus _ _) (natDigits_ne_minus _ _),
    splitAtMinus_append _ _ (natDigits_ne_minus _ _)⟩
  · rw [parseNat_natDigits _ _ (by omega)]
    omega
  · rw [parseNat_natDigits _ _ (by omega)]
    omega

/-- C17, as the code runs: no call of `GetHostPortRange` returns a string. On the
fresh allocator of the range 49153-49162 the probe would find 49153-49154 for two
ports and line 89 would build the string `49153-49154`, but the caller of
`GetHostPortRange(2, "tcp")` receives nothing. -/
theorem no_range_string_is_returned :
    (∀ (W : Type) (a : Allocator W) (probe : Probe W) (numberOfPorts : Int) (protocol : String)
        (str : String),
      (a.GetHostPortRange probe numberOfPorts protocol).1 ≠ some (.ok str)) ∧
      (firstFitProbe ⟨2, 49153, 49162, "tcp"⟩ ()).1 = ⟨49153, 49154, true⟩ ∧
      rangeString 49153 49154 = "49153-49154" ∧
      ((Allocator.fresh 49153 49162 ()).GetHostPortRange firstFitProbe 2 "tcp").1 = none :=
  ⟨fun W a probe numberOfPorts protocol str h => by
      rw [a.GetHostPortRange_returns_nothing probe numberOfPorts protocol] at h
      exact absurd h (by simp),
    by decide, by decide, by decide⟩

/-! ## The port under the cursor -/

/-- C20, as the code runs: on the range 49153-49162 with the cursor at 49157 a
request for the ten ports of the range, and a request for six ports, more than
the five ports after the cursor and the four before it, find no room in either
window, yet `GetHostPortRange` does not fail: the caller receives no error. -/
theorem full_width_request_does_not_fail :
    ((10 : Int) = 49162 - 49153 + 1 ∧ (49162 : Int) - 49157 < 6 ∧ (49157 : Int) - 49153 < 6) ∧
      ((firstFitProbe ⟨10, 49158, 49162, "tcp"⟩ ()).1.ok = false ∧
        (firstFitProbe ⟨10, 49153, 49156, "tcp"⟩ ()).1.ok = false ∧
        (firstFitProbe ⟨6, 49158, 49162, "tcp"⟩ ()).1.ok = false ∧
        (firstFitProbe ⟨6, 49153, 49156, "tcp"⟩ ()).1.ok = false) ∧
      ((⟨⟨49153, 49162, 49157⟩, .free, ()⟩ : Allocator Unit).GetHostPortRange
        firstFitProbe 10 "tcp").1 = none ∧
      ((⟨⟨49153, 49162, 49157⟩, .free, ()⟩ : Allocator Unit).GetHostPortRange
        firstFitProbe 6 "tcp").1 = none ∧
      (∀ (probe : Probe Unit) (numberOfPorts : Int) (msg : String),
        ((⟨⟨49153, 49162, 49157⟩, .free, ()⟩ : Allocator Unit).GetHostPortRange
          probe numberOfPorts "tcp").1 ≠ some (.error msg)) :=
  ⟨by decide, by decide, by decide, by decide, fun probe numberOfPorts msg h => by
    rw [Allocator.GetHostPortRange_returns_nothing] at h
    exact absurd h (by simp)⟩

end PortMapper
